import Mathlib

/-!
Shallow embedding of `src/main.rs` of catitodev/rust_api_crud: a tide HTTP
service exposing CRUD over users, with JWT (HS256) bearer-token
authentication guarding the mutating routes and a bcrypt-verified seeded
admin credential for login.

The Rust source owns the handler logic (`login`, `extract_token_claims`,
`create_user`, `update_user`, `delete_user`, `get_user_by_id`) and the
in-memory stores (`HashMap` behind a mutex).  The `jsonwebtoken` and
`bcrypt` crates are external libraries, not part of the repository; their
behaviour is modelled from the spec (section 4.2 and 4.3) where noted.

Conventions of the embedding:
- `HashMap<String, _>` becomes an association list with HashMap-faithful
  operations (`getU` finds the binding, `insertU` replaces it, `removeU`
  drops it, in-place mutation of `get_mut` becomes a keyed map).
- The mutex linearises handler executions; each handler is a pure function
  from (inputs, store) to (response, store), one call per linearisation
  point.
- wall-clock readings (`Utc::now`, `SystemTime::now`) are explicit `Nat`
  parameters (seconds for token expiry, nanoseconds for id generation).
- JSON response bodies are modelled structurally (`Body`); the literal
  error strings of the source are kept.
-/

/-- `User` struct of the source (`id`, `name`, `email`, `created_at`). -/
structure User where
  id : String
  name : String
  email : String
  created_at : String
deriving DecidableEq, Repr

/-- `CreateUserRequest` body of POST /users. -/
structure CreateUserRequest where
  name : String
  email : String
deriving DecidableEq, Repr

/-- `UpdateUserRequest` body of PUT /users/:id; both fields optional. -/
structure UpdateUserRequest where
  name : Option String
  email : Option String
deriving DecidableEq, Repr

/-- `Admin` struct of the source (seeded credential record). -/
structure Admin where
  username : String
  password_hash : String
  created_at : String
deriving DecidableEq, Repr

/-- `LoginRequest` body of POST /auth/login. -/
structure LoginRequest where
  username : String
  password : String
deriving DecidableEq, Repr

/-- `Claims` struct of the source: the JWT payload, username plus
numeric expiry (seconds since the epoch, `expiration.timestamp()`). -/
structure Claims where
  username : String
  exp : Nat
deriving DecidableEq, Repr

/-- JWT header algorithm field.  The source encodes with
`Header::default()` (HS256) and decodes with `Validation::new(Algorithm::HS256)`. -/
inductive Alg where
  | HS256
  | NoneAlg
  | Other (s : String)
deriving DecidableEq, Repr

/-- Modelled from the spec: the compact three-part signed token string of
the `jsonwebtoken` library (not in src/).  A token string either fails
structural parsing (`malformed`) or carries a header algorithm, a claims
payload and a signature value. -/
inductive TokenStr where
  | malformed
  | signed (alg : Alg) (claims : Claims) (sig : Nat)
deriving DecidableEq, Repr

/-- Numeric code of a header algorithm, an input to the modelled MAC. -/
def algCode : Alg → Nat
  | Alg.HS256 => 1
  | Alg.NoneAlg => 2
  | Alg.Other s => 3 + s.length

/-- Deterministic code of a string, used by the modelled MAC. -/
def strCode (s : String) : Nat :=
  s.data.foldl (fun a c => a * 257 + c.toNat + 1) 7

/-- Modelled from the spec: HMAC-SHA256 of the `jsonwebtoken` library
(not in src/), a deterministic function of the process secret and of the
signed content (header algorithm plus claims).  Collision resistance is
not modelled; only determinism is used. -/
def hmac (secret : String) (alg : Alg) (c : Claims) : Nat :=
  strCode secret * 1000003 + strCode c.username * 65537 + c.exp * 257 + algCode alg

/-- Modelled from the spec: `jsonwebtoken::encode` with `Header::default()`
(not in src/): signs the claims with HS256 under the secret. -/
def jwtEncode (secret : String) (c : Claims) : TokenStr :=
  TokenStr.signed Alg.HS256 c (hmac secret Alg.HS256 c)

/-- Modelled from the spec: `jsonwebtoken::decode::<Claims>` with
`Validation::new(Algorithm::HS256)` (not in src/): rejects a structurally
malformed token, a header algorithm other than HS256, a signature that is
not the HS256 MAC of the content under the secret, and an expiry that is
not strictly in the future (spec 4.3: Invalid when expires_at is at or
before now).  Total: every failure is the `none` outcome, never a throw
(`.ok()?` in the source). -/
def jwtDecode (secret : String) (now : Nat) (t : TokenStr) : Option Claims :=
  match t with
  | TokenStr.malformed => none
  | TokenStr.signed alg c sig =>
    if alg = Alg.HS256 ∧ sig = hmac secret alg c ∧ now < c.exp then some c else none

/-- Predicate: the token carries a signature that verifies under the
process secret (the process verifies only HS256, so a token naming another
algorithm has no verifying signature under the secret). -/
def sigVerifies (secret : String) (t : TokenStr) : Prop :=
  match t with
  | TokenStr.malformed => False
  | TokenStr.signed alg c sig => alg = Alg.HS256 ∧ sig = hmac secret alg c

instance (secret : String) (t : TokenStr) : Decidable (sigVerifies secret t) := by
  unfold sigVerifies
  cases t <;> infer_instance

/-- Incoming request as the auth gate sees it: only the Authorization
header value matters (`req.header("Authorization")`). -/
structure Req where
  authHeader : Option String
deriving DecidableEq, Repr

/-- The `auth_header.as_str().strip_prefix("Bearer ")` step of
`extract_token_claims`: exact, case-sensitive match of the seven
characters `Bearer` plus space, returning the remainder (matching at the
character level, the Rust operation on the header string). -/
def bearerRest (s : String) : Option String :=
  if "Bearer ".data.isPrefixOf s.data then some (String.mk (s.data.drop 7)) else none

/-- `extract_token_claims` of the source: header lookup, bearer-scheme
strip, then JWT decode under the process secret.  `parse` models the wire
parsing of the token string by the library (any function; the theorems
hold for all of them). -/
def extractTokenClaims (parse : String → TokenStr) (secret : String) (now : Nat)
    (r : Req) : Option Claims :=
  match r.authHeader with
  | none => none
  | some h =>
    match bearerRest h with
    | none => none
    | some ts => jwtDecode secret now (parse ts)

/-- Response bodies, modelled structurally; error and message strings are
the literal strings of the source (their JSON wrapper elided). -/
inductive Body where
  | userB (u : User)
  | usersB (l : List User)
  | claimsB (c : Claims)
  | loginB (token : TokenStr) (expires_in : Nat)
  | errB (msg : String)
  | msgB (msg : String)
deriving DecidableEq, Repr

/-- HTTP response: status code plus body. -/
structure Response where
  status : Nat
  body : Body
deriving DecidableEq, Repr

/-- The 401 response every gated handler returns when
`extract_token_claims` yields `None`. -/
def authRequired : Response :=
  { status := 401, body := Body.errB "Authentication required for this operation" }

/-- The 401 response of a failed login. -/
def invalidCredentials : Response :=
  { status := 401, body := Body.errB "Invalid credentials" }

/-- The 404 response of a missing user id. -/
def userNotFound : Response :=
  { status := 404, body := Body.errB "User not found" }

/-- The user store: `HashMap<String, User>` as an association list. -/
abbrev Store := List (String × User)

/-- `users.get(&k)` : the binding of `k`, if any. -/
def Store.getU : Store → String → Option User
  | [], _ => none
  | p :: st, k => if p.1 = k then some p.2 else Store.getU st k

/-- `users.remove(&k)` : drops the binding of `k`, if any. -/
def Store.removeU : Store → String → Store
  | [], _ => []
  | p :: st, k => if p.1 = k then Store.removeU st k else p :: Store.removeU st k

/-- `users.insert(k, v)` : replaces any binding of `k` with `v`. -/
def Store.insertU (st : Store) (k : String) (v : User) : Store :=
  (k, v) :: st.removeU k

/-- In-place mutation through `users.get_mut(&k)`: rewrite the binding of
`k` by `f`, leaving every other binding untouched. -/
def Store.mutateU : Store → String → (User → User) → Store
  | [], _, _ => []
  | p :: st, k, f =>
    (if p.1 = k then (p.1, f p.2) else p) :: Store.mutateU st k f

/-- The two `if let Some(..)` field writes of `update_user`: overwrite
exactly the fields present in the patch. -/
def applyPatch (patch : UpdateUserRequest) (u : User) : User :=
  let u1 := match patch.name with
    | some n => { u with name := n }
    | none => u
  match patch.email with
  | some e => { u1 with email := e }
  | none => u1

/-- The admin store: `HashMap<String, Admin>` as an association list. -/
abbrev AdminStore := List (String × Admin)

/-- `admins.get(&username)`. -/
def lookupAdmin : AdminStore → String → Option Admin
  | [], _ => none
  | p :: db, k => if p.1 = k then some p.2 else lookupAdmin db k

/-- Modelled from the spec: `bcrypt::hash` (not in src/), a salted one-way
adaptive hash; modelled deterministically (salt elided) so that `verify`
recognises exactly the digests this model produces. -/
def bcryptHash (plain : String) : String :=
  "$2b$12$" ++ plain

/-- Modelled from the spec: `bcrypt::verify` (not in src/): boolean
outcome, total (never raises; a malformed digest verifies false,
`unwrap_or(false)` in the source). -/
def bcryptVerify (plain digest : String) : Bool :=
  digest == bcryptHash plain

/-- `AppState::new` seeding: the single admin identity
(username `admin`, password `admin123`). -/
def seedAdmins (createdAt : String) : AdminStore :=
  [("admin", { username := "admin", password_hash := bcryptHash "admin123",
               created_at := createdAt })]

/-- `login` handler (POST /auth/login): credential lookup, bcrypt verify,
then issue a token expiring 24 hours from now (`now` in seconds); both
failure modes fall through to the same 401 response. -/
def login (secret : String) (now : Nat) (admins : AdminStore)
    (r : LoginRequest) : Response :=
  match lookupAdmin admins r.username with
  | some admin =>
    if bcryptVerify r.password admin.password_hash then
      let expiration := now + 24 * 3600
      let claims : Claims := { username := admin.username, exp := expiration }
      { status := 200, body := Body.loginB (jwtEncode secret claims) expiration }
    else invalidCredentials
  | none => invalidCredentials

/-- `verify_token` handler (GET /auth/verify). -/
def verifyToken (parse : String → TokenStr) (secret : String) (now : Nat)
    (r : Req) : Response :=
  match extractTokenClaims parse secret now r with
  | some claims => { status := 200, body := Body.claimsB claims }
  | none => { status := 401, body := Body.errB "Invalid or expired token" }

/-- The id generation of `create_user`:
`format!("user_{}", timestamp_nanos)`. -/
def mkUserId (tsNanos : Nat) : String :=
  "user_" ++ Nat.repr tsNanos

/-- `create_user` handler (POST /users, gated): auth check first, then
build the record with a generated id and insert it.  `tsNanos` is the
`SystemTime::now` nanosecond reading, `createdAt` the `Utc::now` RFC3339
string. -/
def createUser (parse : String → TokenStr) (secret : String) (now : Nat)
    (tsNanos : Nat) (createdAt : String) (st : Store) (r : Req)
    (body : CreateUserRequest) : Response × Store :=
  match extractTokenClaims parse secret now r with
  | none => (authRequired, st)
  | some _ =>
    let id := mkUserId tsNanos
    let user : User := { id := id, name := body.name, email := body.email,
                         created_at := createdAt }
    ({ status := 201, body := Body.userB user }, st.insertU id user)

/-- `update_user` handler (PUT /users/:id, gated): auth check first, then
patch the record in place if it exists, else 404 leaving the store
unchanged. -/
def updateUser (parse : String → TokenStr) (secret : String) (now : Nat)
    (st : Store) (r : Req) (userId : String)
    (body : UpdateUserRequest) : Response × Store :=
  match extractTokenClaims parse secret now r with
  | none => (authRequired, st)
  | some _ =>
    match st.getU userId with
    | some user =>
      ({ status := 200, body := Body.userB (applyPatch body user) },
       st.mutateU userId (applyPatch body))
    | none => (userNotFound, st)

/-- `delete_user` handler (DELETE /users/:id, gated): auth check first,
then remove the record if present (200), else 404; removal of an absent
key leaves the store unchanged. -/
def deleteUser (parse : String → TokenStr) (secret : String) (now : Nat)
    (st : Store) (r : Req) (userId : String) : Response × Store :=
  match extractTokenClaims parse secret now r with
  | none => (authRequired, st)
  | some _ =>
    match st.getU userId with
    | some _ =>
      ({ status := 200, body := Body.msgB "User deleted successfully" },
       st.removeU userId)
    | none => (userNotFound, st)

/-- `get_user_by_id` handler (GET /users/:id, public: no auth gate). -/
def getUserById (st : Store) (userId : String) : Response :=
  match st.getU userId with
  | some user => { status := 200, body := Body.userB user }
  | none => userNotFound

/-- `get_all_users` handler (GET /users, public). -/
def getAllUsers (st : Store) : Response :=
  { status := 200, body := Body.usersB (st.map (fun p => p.2)) }

/-- Value of one decimal digit character (used to read generated ids back). -/
def decDigit (c : Char) : Nat := c.toNat - 48

/-- Read a decimal digit string back to a number: a left inverse of the
decimal rendering used by the id generator. -/
def decodeDec (l : List Char) : Nat :=
  l.foldl (fun a c => a * 10 + decDigit c) 0

/-! ## Store lemmas -/

theorem Store.getU_removeU_self (st : Store) (k : String) :
    (st.removeU k).getU k = none := by
  induction st with
  | nil => rfl
  | cons p st ih =>
    by_cases h : p.1 = k
    · simpa [Store.removeU, h] using ih
    · simpa [Store.removeU, Store.getU, h] using ih

theorem Store.getU_removeU_other (st : Store) (k k2 : String) (h : k2 ≠ k) :
    (st.removeU k).getU k2 = st.getU k2 := by
  have hk : ¬ k = k2 := fun hk => h hk.symm
  induction st with
  | nil => rfl
  | cons p st ih =>
    by_cases hp : p.1 = k
    · simp [Store.removeU, Store.getU, hp, hk, ih]
    · by_cases hp2 : p.1 = k2
      · simp [Store.removeU, Store.getU, hp, hp2, h]
      · simp [Store.removeU, Store.getU, hp, hp2, ih]

theorem Store.getU_insertU_self (st : Store) (k : String) (v : User) :
    (st.insertU k v).getU k = some v := by
  simp [Store.insertU, Store.getU]

theorem Store.getU_insertU_other (st : Store) (k k2 : String) (v : User)
    (h : k2 ≠ k) : (st.insertU k v).getU k2 = st.getU k2 := by
  have hk : ¬ k = k2 := fun hk => h hk.symm
  simp only [Store.insertU, Store.getU, if_neg hk]
  exact Store.getU_removeU_other st k k2 h

theorem Store.getU_mutateU_self (st : Store) (k : String) (f : User → User) :
    (st.mutateU k f).getU k = (st.getU k).map f := by
  induction st with
  | nil => rfl
  | cons p st ih =>
    by_cases h : p.1 = k
    · simp [Store.mutateU, Store.getU, h]
    · simp [Store.mutateU, Store.getU, h, ih]

theorem Store.getU_mutateU_other (st : Store) (k k2 : String) (f : User → User)
    (h : k2 ≠ k) : (st.mutateU k f).getU k2 = st.getU k2 := by
  have hk : ¬ k = k2 := fun hk => h hk.symm
  induction st with
  | nil => rfl
  | cons p st ih =>
    by_cases hp : p.1 = k
    · simp [Store.mutateU, Store.getU, hp, hk, ih]
    · by_cases hp2 : p.1 = k2
      · simp [Store.mutateU, Store.getU, hp, hp2, h]
      · simp [Store.mutateU, Store.getU, hp, hp2, ih]

theorem Store.removeU_of_getU_none (st : Store) (k : String)
    (h : st.getU k = none) : st.removeU k = st := by
  induction st with
  | nil => rfl
  | cons p st ih =>
    by_cases hp : p.1 = k
    · simp [Store.getU, hp] at h
    · simp [Store.getU, hp] at h
      simp [Store.removeU, hp, ih h]

/-! ## Injectivity of the generated ids

The id of a created record is the decimal rendering of the nanosecond
clock reading; distinct readings give distinct ids because `Nat.repr` is
injective.  Core ships no injectivity lemma, so it is proved here by
exhibiting a left inverse of `Nat.toDigits 10` (reading the decimal
digits back). -/

theorem decDigit_digitChar (d : Nat) (h : d < 10) :
    decDigit (Nat.digitChar d) = d := by
  interval_cases d <;> rfl

theorem toDigitsCore_acc (b : Nat) : ∀ (fuel n : Nat) (ds : List Char),
    Nat.toDigitsCore b fuel n ds = Nat.toDigitsCore b fuel n [] ++ ds := by
  intro fuel
  induction fuel with
  | zero => intro n ds; simp [Nat.toDigitsCore]
  | succ f ih =>
    intro n ds
    simp only [Nat.toDigitsCore]
    by_cases h : n / b = 0
    · simp [h]
    · simp only [h, if_false]
      rw [ih (n / b) (Nat.digitChar (n % b) :: ds),
        ih (n / b) [Nat.digitChar (n % b)], List.append_assoc]
      rfl

theorem decodeDec_append_one (xs : List Char) (c : Char) :
    decodeDec (xs ++ [c]) = decodeDec xs * 10 + decDigit c := by
  simp [decodeDec, List.foldl_append]

theorem decodeDec_toDigitsCore :
    ∀ (fuel n : Nat), n < fuel → decodeDec (Nat.toDigitsCore 10 fuel n []) = n := by
  intro fuel
  induction fuel with
  | zero => intro n hn; omega
  | succ f ih =>
    intro n hn
    simp only [Nat.toDigitsCore]
    by_cases h : n / 10 = 0
    · have hlt : n < 10 := by omega
      have hmod : n % 10 = n := Nat.mod_eq_of_lt hlt
      simp [h, decodeDec]
      rw [hmod, decDigit_digitChar n hlt]
    · have hpos : 0 < n := by
        rcases Nat.eq_zero_or_pos n with h0 | h0
        · subst h0; simp at h
        · exact h0
      have hdiv : n / 10 < f := by
        have := Nat.div_lt_self hpos (by omega : 1 < 10)
        omega
      rw [if_neg h, toDigitsCore_acc, decodeDec_append_one, ih (n / 10) hdiv,
        decDigit_digitChar (n % 10) (Nat.mod_lt n (by omega))]
      omega

theorem decodeDec_toDigits (n : Nat) : decodeDec (Nat.toDigits 10 n) = n :=
  decodeDec_toDigitsCore (n + 1) n (Nat.lt_succ_self n)

theorem natRepr_injective : Function.Injective Nat.repr := by
  intro a b h
  have hd : Nat.toDigits 10 a = Nat.toDigits 10 b := by
    have hdata := congrArg String.data h
    simpa [Nat.repr, List.asString] using hdata
  have hv := congrArg decodeDec hd
  simpa [decodeDec_toDigits] using hv

theorem mkUserId_injective : Function.Injective mkUserId := by
  intro a b h
  apply natRepr_injective
  have hd := congrArg String.data h
  simp only [mkUserId, String.data_append] at hd
  exact String.ext (List.append_cancel_left hd)

/-! ## Claims -/

/-- C1: for every mutating request (create, update, delete) whose token
extraction or validation fails (`extract_token_claims` returns `None`),
the handler returns the 401 response and the user store is returned
unchanged: the auth gate short-circuits before any store operation. -/
theorem C1_gate_short_circuits (parse : String → TokenStr) (secret : String)
    (now tsNanos : Nat) (createdAt : String) (st : Store) (r : Req)
    (cb : CreateUserRequest) (uid : String) (ub : UpdateUserRequest)
    (h : extractTokenClaims parse secret now r = none) :
    createUser parse secret now tsNanos createdAt st r cb = (authRequired, st) ∧
    updateUser parse secret now st r uid ub = (authRequired, st) ∧
    deleteUser parse secret now st r uid = (authRequired, st) ∧
    authRequired.status = 401 := by
  refine ⟨?_, ?_, ?_, rfl⟩ <;> simp [createUser, updateUser, deleteUser, h]

/-- C1 witness: the short-circuit at a concrete unauthenticated request. -/
theorem C1_gate_short_circuits_witness :
    createUser (fun _ => TokenStr.malformed) "s" 0 5 "t" [] { authHeader := none }
        { name := "Ana", email := "a@x.com" } = (authRequired, []) ∧
    updateUser (fun _ => TokenStr.malformed) "s" 0 [] { authHeader := none } "u1"
        { name := none, email := none } = (authRequired, []) ∧
    deleteUser (fun _ => TokenStr.malformed) "s" 0 [] { authHeader := none } "u1" =
      (authRequired, []) ∧
    authRequired.status = 401 :=
  C1_gate_short_circuits (fun _ => TokenStr.malformed) "s" 0 5 "t" []
    { authHeader := none } { name := "Ana", email := "a@x.com" } "u1"
    { name := none, email := none } rfl

/-- C2: token validation yields the Invalid outcome (`none`) exactly when
the signature does not verify under the process secret, the token is
structurally malformed, or the expiry is at or before the validation
time; in particular any tampered signature (a value other than the MAC of
the content) is Invalid, and an expired token with a correct signature is
Invalid.  The validator is a total function into `Option`, so every
failure is the uniform `none` outcome, never an exception. -/
theorem C2_validate_invalid_iff (secret : String) (now : Nat) (t : TokenStr) :
    (jwtDecode secret now t = none ↔
      t = TokenStr.malformed ∨ ¬ sigVerifies secret t ∨
        (∃ alg c sig, t = TokenStr.signed alg c sig ∧ c.exp ≤ now)) ∧
    (∀ alg c sig, sig ≠ hmac secret alg c →
      jwtDecode secret now (TokenStr.signed alg c sig) = none) ∧
    (∀ c : Claims, c.exp ≤ now →
      jwtDecode secret now (jwtEncode secret c) = none) := by
  refine ⟨?_, ?_, ?_⟩
  · cases t with
    | malformed => simp [jwtDecode, sigVerifies]
    | signed alg c sig =>
      simp only [jwtDecode, sigVerifies, ite_eq_right_iff, TokenStr.signed.injEq,
        reduceCtorEq, false_or]
      constructor
      · intro hif
        by_cases ha : alg = Alg.HS256
        · by_cases hs : sig = hmac secret alg c
          · by_cases he : now < c.exp
            · exact absurd (hif ⟨ha, hs, he⟩) (by simp)
            · exact Or.inr ⟨alg, c, sig, ⟨rfl, rfl, rfl⟩, by omega⟩
          · exact Or.inl (by tauto)
        · exact Or.inl (by tauto)
      · rintro (hns | ⟨alg2, c2, sig2, ⟨h1, h2, h3⟩, hexp⟩)
        · intro hcond; exact absurd ⟨hcond.1, hcond.2.1⟩ hns
        · subst h1; subst h2; subst h3
          intro hcond; omega
  · intro alg c sig hs
    simp [jwtDecode, hs]
  · intro c hc
    simp [jwtDecode, jwtEncode]
    omega

/-- C2 witness: a token whose signature is tampered (off by one from the
correct MAC) is Invalid, and an expired token with the correct signature
is Invalid, at concrete inputs. -/
theorem C2_validate_invalid_iff_witness :
    jwtDecode "s" 0 (TokenStr.signed Alg.HS256 { username := "admin", exp := 10 }
      (hmac "s" Alg.HS256 { username := "admin", exp := 10 } + 1)) = none ∧
    jwtDecode "s" 99999 (jwtEncode "s" { username := "admin", exp := 10 }) = none :=
  ⟨(C2_validate_invalid_iff "s" 0 TokenStr.malformed).2.1 Alg.HS256
      { username := "admin", exp := 10 } _ (Nat.succ_ne_self _),
   (C2_validate_invalid_iff "s" 99999 TokenStr.malformed).2.2
      { username := "admin", exp := 10 } (by decide)⟩

/-- C3: a login whose credentials pass the store lookup and the bcrypt
verification (the valid admin credentials) returns 200 and issues a token
whose subject is the username; that token validates (decodes to exactly
those claims) at every time strictly within 24 hours of issuance and is
Invalid at and after issuance plus 24 hours (the model expires exactly at
the bound, so the epsilon of the claim is zero).  Times are seconds. -/
theorem C3_login_token_window (secret : String) (now : Nat)
    (admins : AdminStore) (r : LoginRequest) (admin : Admin)
    (hlk : lookupAdmin admins r.username = some admin)
    (hu : admin.username = r.username)
    (hv : bcryptVerify r.password admin.password_hash = true) :
    login secret now admins r =
      { status := 200,
        body := Body.loginB
          (jwtEncode secret { username := r.username, exp := now + 24 * 3600 })
          (now + 24 * 3600) } ∧
    (∀ t, t < now + 24 * 3600 →
      jwtDecode secret t
          (jwtEncode secret { username := r.username, exp := now + 24 * 3600 }) =
        some { username := r.username, exp := now + 24 * 3600 }) ∧
    (∀ t, now + 24 * 3600 ≤ t →
      jwtDecode secret t
          (jwtEncode secret { username := r.username, exp := now + 24 * 3600 }) =
        none) := by
  refine ⟨?_, ?_, ?_⟩
  · simp [login, hlk, hv, hu]
  · intro t ht
    simp [jwtDecode, jwtEncode, ht]
  · intro t ht
    simp [jwtDecode, jwtEncode]
    omega

/-- C3 witness: the seeded admin credentials at issuance time 0; the
token validates at time 100 and is Invalid at time 86400 (24 hours). -/
theorem C3_login_token_window_witness :
    login "s" 0 (seedAdmins "t0") { username := "admin", password := "admin123" } =
      { status := 200,
        body := Body.loginB (jwtEncode "s" { username := "admin", exp := 0 + 24 * 3600 })
          (0 + 24 * 3600) } ∧
    jwtDecode "s" 100 (jwtEncode "s" { username := "admin", exp := 0 + 24 * 3600 }) =
      some { username := "admin", exp := 0 + 24 * 3600 } ∧
    jwtDecode "s" 86400 (jwtEncode "s" { username := "admin", exp := 0 + 24 * 3600 }) =
      none := by
  have h := C3_login_token_window "s" 0 (seedAdmins "t0")
    { username := "admin", password := "admin123" }
    { username := "admin", password_hash := bcryptHash "admin123", created_at := "t0" }
    (by decide) rfl (by decide)
  exact ⟨h.1, h.2.1 100 (by decide), h.2.2 86400 (by decide)⟩

/-- C4 counterexample: two authenticated creates sharing one nanosecond
clock reading (reading 5) mint the same id `user_5`; the second insert
overwrites the first, so the two creates leave a single record.  This
falsifies the distinctness of ids for creates within the same clock
reading. -/
theorem C4_same_reading_collision :
    (createUser (fun _ => jwtEncode "s" { username := "admin", exp := 10 }) "s" 0 5 "t1"
        [] { authHeader := some "Bearer x" } { name := "Ana", email := "a" }).1.body =
      Body.userB { id := mkUserId 5, name := "Ana", email := "a", created_at := "t1" } ∧
    (createUser (fun _ => jwtEncode "s" { username := "admin", exp := 10 }) "s" 0 5 "t2"
        (createUser (fun _ => jwtEncode "s" { username := "admin", exp := 10 }) "s" 0 5 "t1"
          [] { authHeader := some "Bearer x" } { name := "Ana", email := "a" }).2
        { authHeader := some "Bearer x" } { name := "Bob", email := "b" }).1.body =
      Body.userB { id := mkUserId 5, name := "Bob", email := "b", created_at := "t2" } ∧
    ({ id := mkUserId 5, name := "Ana", email := "a", created_at := "t1" } : User) ≠
      { id := mkUserId 5, name := "Bob", email := "b", created_at := "t2" } ∧
    (createUser (fun _ => jwtEncode "s" { username := "admin", exp := 10 }) "s" 0 5 "t2"
        (createUser (fun _ => jwtEncode "s" { username := "admin", exp := 10 }) "s" 0 5 "t1"
          [] { authHeader := some "Bearer x" } { name := "Ana", email := "a" }).2
        { authHeader := some "Bearer x" } { name := "Bob", email := "b" }).2.length = 1 := by
  decide

/-- C4 amended: the id of every successful create is `user_` plus the
decimal rendering of the nanosecond clock reading; it is therefore never
supplied by the caller, and two creates with distinct clock readings mint
distinct ids.  (Creates sharing one clock reading collide, as the
counterexample shows, so distinctness holds only across distinct
readings.) -/
theorem C4_distinct_readings_distinct_ids (parse : String → TokenStr)
    (secret : String) (now ts1 ts2 : Nat) (ca1 ca2 : String) (st1 st2 : Store)
    (r1 r2 : Req) (b1 b2 : CreateUserRequest) (u1 u2 : User)
    (h1 : (createUser parse secret now ts1 ca1 st1 r1 b1).1.body = Body.userB u1)
    (h2 : (createUser parse secret now ts2 ca2 st2 r2 b2).1.body = Body.userB u2)
    (hts : ts1 ≠ ts2) :
    u1.id = mkUserId ts1 ∧ u2.id = mkUserId ts2 ∧ u1.id ≠ u2.id := by
  have hid : ∀ (ts : Nat) (ca : String) (st : Store) (r : Req)
      (b : CreateUserRequest) (u : User),
      (createUser parse secret now ts ca st r b).1.body = Body.userB u →
      u.id = mkUserId ts := by
    intro ts ca st r b u h
    cases hc : extractTokenClaims parse secret now r with
    | none => simp [createUser, hc, authRequired] at h
    | some c =>
      simp [createUser, hc] at h
      rw [← h]
  have e1 := hid ts1 ca1 st1 r1 b1 u1 h1
  have e2 := hid ts2 ca2 st2 r2 b2 u2 h2
  refine ⟨e1, e2, ?_⟩
  rw [e1, e2]
  intro heq
  exact hts (mkUserId_injective heq)

/-- C4 amended witness: readings 5 and 6 mint the distinct ids `user_5`
and `user_6`. -/
theorem C4_distinct_readings_distinct_ids_witness :
    ({ id := mkUserId 5, name := "Ana", email := "a", created_at := "t1" } : User).id =
      mkUserId 5 ∧
    ({ id := mkUserId 6, name := "Bob", email := "b", created_at := "t2" } : User).id =
      mkUserId 6 ∧
    ({ id := mkUserId 5, name := "Ana", email := "a", created_at := "t1" } : User).id ≠
      ({ id := mkUserId 6, name := "Bob", email := "b", created_at := "t2" } : User).id :=
  C4_distinct_readings_distinct_ids
    (fun _ => jwtEncode "s" { username := "admin", exp := 10 }) "s" 0 5 6 "t1" "t2"
    [] [] { authHeader := some "Bearer x" } { authHeader := some "Bearer x" }
    { name := "Ana", email := "a" } { name := "Bob", email := "b" }
    { id := mkUserId 5, name := "Ana", email := "a", created_at := "t1" }
    { id := mkUserId 6, name := "Bob", email := "b", created_at := "t2" }
    (by decide) (by decide) (by decide)

/-- C5: for an authenticated update of an existing id, the handler
returns 200 with the patched record; the store binding of that id becomes
the patched record while every other id keeps its binding; the patch
overwrites exactly the fields present (`id` and `created_at` are never
touched, `name`/`email` keep their value when absent from the patch and
take the patched value when present).  For a non-existing id the handler
returns 404 and the store is unchanged. -/
theorem C5_update_frame (parse : String → TokenStr) (secret : String) (now : Nat)
    (st : Store) (r : Req) (userId : String) (patch : UpdateUserRequest)
    (hauth : (extractTokenClaims parse secret now r).isSome = true) :
    (∀ u, st.getU userId = some u →
      (updateUser parse secret now st r userId patch).1 =
        { status := 200, body := Body.userB (applyPatch patch u) } ∧
      (updateUser parse secret now st r userId patch).2.getU userId =
        some (applyPatch patch u) ∧
      (applyPatch patch u).id = u.id ∧
      (applyPatch patch u).created_at = u.created_at ∧
      (patch.name = none → (applyPatch patch u).name = u.name) ∧
      (patch.email = none → (applyPatch patch u).email = u.email) ∧
      (∀ n, patch.name = some n → (applyPatch patch u).name = n) ∧
      (∀ e, patch.email = some e → (applyPatch patch u).email = e) ∧
      (∀ k, k ≠ userId →
        (updateUser parse secret now st r userId patch).2.getU k = st.getU k)) ∧
    (st.getU userId = none →
      updateUser parse secret now st r userId patch = (userNotFound, st)) := by
  obtain ⟨c, hc⟩ := Option.isSome_iff_exists.mp hauth
  constructor
  · intro u hget
    refine ⟨?_, ?_, ?_, ?_, ?_, ?_, ?_, ?_, ?_⟩
    · simp [updateUser, hc, hget]
    · simp [updateUser, hc, hget, Store.getU_mutateU_self]
    · cases hn : patch.name <;> cases he : patch.email <;> simp [applyPatch, hn, he]
    · cases hn : patch.name <;> cases he : patch.email <;> simp [applyPatch, hn, he]
    · intro hn; cases he : patch.email <;> simp [applyPatch, hn, he]
    · intro he; cases hn : patch.name <;> simp [applyPatch, hn, he]
    · intro n hn; cases he : patch.email <;> simp [applyPatch, hn, he]
    · intro e he; cases hn : patch.name <;> simp [applyPatch, hn, he]
    · intro k hk
      simp [updateUser, hc, hget, Store.getU_mutateU_other st userId k _ hk]
  · intro hnone
    simp [updateUser, hc, hnone]

/-- C5 witness: a patch that sets only the name changes only the name of
a concrete stored record; a non-existing id gives 404 and an unchanged
store. -/
theorem C5_update_frame_witness :
    (updateUser (fun _ => jwtEncode "s" { username := "admin", exp := 10 }) "s" 0
        [("u1", { id := "u1", name := "Ana", email := "a@x", created_at := "t" })]
        { authHeader := some "Bearer x" } "u1"
        { name := some "X", email := none }).2.getU "u1" =
      some (applyPatch { name := some "X", email := none }
        { id := "u1", name := "Ana", email := "a@x", created_at := "t" }) ∧
    (applyPatch { name := some "X", email := none }
        { id := "u1", name := "Ana", email := "a@x", created_at := "t" }).email = "a@x" ∧
    updateUser (fun _ => jwtEncode "s" { username := "admin", exp := 10 }) "s" 0
        [("u1", { id := "u1", name := "Ana", email := "a@x", created_at := "t" })]
        { authHeader := some "Bearer x" } "u2" { name := some "X", email := none } =
      (userNotFound,
        [("u1", { id := "u1", name := "Ana", email := "a@x", created_at := "t" })]) := by
  have h1 := C5_update_frame (fun _ => jwtEncode "s" { username := "admin", exp := 10 })
    "s" 0 [("u1", { id := "u1", name := "Ana", email := "a@x", created_at := "t" })]
    { authHeader := some "Bearer x" } "u1" { name := some "X", email := none } (by decide)
  have h2 := C5_update_frame (fun _ => jwtEncode "s" { username := "admin", exp := 10 })
    "s" 0 [("u1", { id := "u1", name := "Ana", email := "a@x", created_at := "t" })]
    { authHeader := some "Bearer x" } "u2" { name := some "X", email := none } (by decide)
  refine ⟨(h1.1 { id := "u1", name := "Ana", email := "a@x", created_at := "t" }
    (by decide)).2.1, ?_, h2.2 (by decide)⟩
  exact (h1.1 { id := "u1", name := "Ana", email := "a@x", created_at := "t" }
    (by decide)).2.2.2.2.2.1 rfl

/-- C6: every record returned by a successful (authenticated) create is
found unchanged by an immediate `get_user_by_id` on its id against the
store the create produced: status 201 at the create, status 200 and the
same record at the get. -/
theorem C6_get_after_create (parse : String → TokenStr) (secret : String)
    (now tsNanos : Nat) (createdAt : String) (st : Store) (r : Req)
    (cb : CreateUserRequest)
    (hauth : (extractTokenClaims parse secret now r).isSome = true) :
    ∀ u : User,
      (createUser parse secret now tsNanos createdAt st r cb).1.body = Body.userB u →
      (createUser parse secret now tsNanos createdAt st r cb).1.status = 201 ∧
      getUserById (createUser parse secret now tsNanos createdAt st r cb).2 u.id =
        { status := 200, body := Body.userB u } := by
  obtain ⟨c, hc⟩ := Option.isSome_iff_exists.mp hauth
  intro u hu
  simp [createUser, hc] at hu
  constructor
  · simp [createUser, hc]
  · simp [createUser, hc, getUserById, ← hu, Store.getU_insertU_self]

/-- C6 witness: a concrete create followed by a get on the returned id. -/
theorem C6_get_after_create_witness :
    (createUser (fun _ => jwtEncode "s" { username := "admin", exp := 10 }) "s" 0 5 "t"
        [] { authHeader := some "Bearer x" } { name := "Ana", email := "a" }).1.status =
      201 ∧
    getUserById
        (createUser (fun _ => jwtEncode "s" { username := "admin", exp := 10 }) "s" 0 5
          "t" [] { authHeader := some "Bearer x" } { name := "Ana", email := "a" }).2
        ({ id := mkUserId 5, name := "Ana", email := "a", created_at := "t" } : User).id =
      { status := 200,
        body := Body.userB
          { id := mkUserId 5, name := "Ana", email := "a", created_at := "t" } } :=
  C6_get_after_create (fun _ => jwtEncode "s" { username := "admin", exp := 10 }) "s" 0 5
    "t" [] { authHeader := some "Bearer x" } { name := "Ana", email := "a" } (by decide)
    { id := mkUserId 5, name := "Ana", email := "a", created_at := "t" } (by decide)

/-- C7: after an authenticated delete of an existing id, a get on that id
returns the 404 User-not-found response; a second delete of the same id is
a normal 404 outcome (the handler is a total function, no error or crash)
and leaves the store exactly as the first delete left it. -/
theorem C7_delete_then_notfound (parse : String → TokenStr) (secret : String)
    (now : Nat) (st : Store) (r : Req) (userId : String)
    (hauth : (extractTokenClaims parse secret now r).isSome = true)
    (hex : (st.getU userId).isSome = true) :
    (deleteUser parse secret now st r userId).1.status = 200 ∧
    getUserById (deleteUser parse secret now st r userId).2 userId = userNotFound ∧
    deleteUser parse secret now (deleteUser parse secret now st r userId).2 r userId =
      (userNotFound, (deleteUser parse secret now st r userId).2) := by
  obtain ⟨c, hc⟩ := Option.isSome_iff_exists.mp hauth
  obtain ⟨u, hu⟩ := Option.isSome_iff_exists.mp hex
  have hrem : (st.removeU userId).getU userId = none :=
    Store.getU_removeU_self st userId
  refine ⟨?_, ?_, ?_⟩
  · simp [deleteUser, hc, hu]
  · simp [deleteUser, hc, hu, getUserById, hrem]
  · simp [deleteUser, hc, hu, hrem]

/-- C7 witness: delete, get, and re-delete of a concrete record. -/
theorem C7_delete_then_notfound_witness :
    (deleteUser (fun _ => jwtEncode "s" { username := "admin", exp := 10 }) "s" 0
        [("u1", { id := "u1", name := "Ana", email := "a", created_at := "t" })]
        { authHeader := some "Bearer x" } "u1").1.status = 200 ∧
    getUserById
        (deleteUser (fun _ => jwtEncode "s" { username := "admin", exp := 10 }) "s" 0
          [("u1", { id := "u1", name := "Ana", email := "a", created_at := "t" })]
          { authHeader := some "Bearer x" } "u1").2 "u1" = userNotFound ∧
    deleteUser (fun _ => jwtEncode "s" { username := "admin", exp := 10 }) "s" 0
        (deleteUser (fun _ => jwtEncode "s" { username := "admin", exp := 10 }) "s" 0
          [("u1", { id := "u1", name := "Ana", email := "a", created_at := "t" })]
          { authHeader := some "Bearer x" } "u1").2
        { authHeader := some "Bearer x" } "u1" =
      (userNotFound,
        (deleteUser (fun _ => jwtEncode "s" { username := "admin", exp := 10 }) "s" 0
          [("u1", { id := "u1", name := "Ana", email := "a", created_at := "t" })]
          { authHeader := some "Bearer x" } "u1").2) :=
  C7_delete_then_notfound (fun _ => jwtEncode "s" { username := "admin", exp := 10 })
    "s" 0 [("u1", { id := "u1", name := "Ana", email := "a", created_at := "t" })]
    { authHeader := some "Bearer x" } "u1" (by decide) (by decide)

/-- C8: every failed login — username absent from the credential store,
or present with a password that does not bcrypt-verify against the stored
hash — produces one and the same response, status 401 with the error body
`Invalid credentials`; any two failed logins (of either kind, with any
inputs) are therefore indistinguishable to the caller. -/
theorem C8_login_failure_uniform (secret : String) (now : Nat)
    (admins : AdminStore) (r : LoginRequest)
    (h : lookupAdmin admins r.username = none ∨
      ∃ a, lookupAdmin admins r.username = some a ∧
        bcryptVerify r.password a.password_hash = false) :
    login secret now admins r = { status := 401, body := Body.errB "Invalid credentials" } ∧
    (∀ (secret2 : String) (now2 : Nat) (admins2 : AdminStore) (r2 : LoginRequest),
      (lookupAdmin admins2 r2.username = none ∨
        ∃ a, lookupAdmin admins2 r2.username = some a ∧
          bcryptVerify r2.password a.password_hash = false) →
      login secret2 now2 admins2 r2 = login secret now admins r) := by
  have main : ∀ (s2 : String) (n2 : Nat) (db : AdminStore) (r2 : LoginRequest),
      (lookupAdmin db r2.username = none ∨
        ∃ a, lookupAdmin db r2.username = some a ∧
          bcryptVerify r2.password a.password_hash = false) →
      login s2 n2 db r2 = { status := 401, body := Body.errB "Invalid credentials" } := by
    intro s2 n2 db r2 h2
    rcases h2 with h2 | ⟨a, ha, hv⟩
    · simp [login, h2, invalidCredentials]
    · simp [login, ha, hv, invalidCredentials]
  refine ⟨main secret now admins r h, ?_⟩
  intro s2 n2 db r2 h2
  rw [main s2 n2 db r2 h2, main secret now admins r h]

/-- C8 witness: an unknown username and a wrong password against the
seeded store produce the same 401 response. -/
theorem C8_login_failure_uniform_witness :
    login "s" 0 (seedAdmins "t") { username := "nobody", password := "admin123" } =
      { status := 401, body := Body.errB "Invalid credentials" } ∧
    login "k" 7 (seedAdmins "t") { username := "admin", password := "wrong" } =
      login "s" 0 (seedAdmins "t") { username := "nobody", password := "admin123" } := by
  have h := C8_login_failure_uniform "s" 0 (seedAdmins "t")
    { username := "nobody", password := "admin123" } (Or.inl (by decide))
  exact ⟨h.1, h.2 "k" 7 (seedAdmins "t") { username := "admin", password := "wrong" } (Or.inr ⟨{ username := "admin", password_hash := bcryptHash "admin123", created_at := "t" }, by decide, by decide⟩)⟩

/-- C9: the auth gate authorizes any request whose token decodes (HS256
signature under the process secret, unexpired), without consulting the
credential store: neither `extract_token_claims` nor the gated handlers
take the admin store as an input at all, so a token whose username claim
names no seeded admin identity (lookup yields `none` in every admin
store) still authorizes a create, and the handler result does not depend
on which claims the token carried (they are discarded, `is_none` only). -/
theorem C9_gate_ignores_identity (parse : String → TokenStr) (secret : String)
    (now tsNanos : Nat) (createdAt : String) (st : Store) (r : Req)
    (cb : CreateUserRequest) (c : Claims)
    (hc : extractTokenClaims parse secret now r = some c) :
    (createUser parse secret now tsNanos createdAt st r cb).1.status = 201 ∧
    (∀ admins : AdminStore, lookupAdmin admins c.username = none →
      (createUser parse secret now tsNanos createdAt st r cb).1.status = 201) ∧
    (∀ (r2 : Req) (c2 : Claims), extractTokenClaims parse secret now r2 = some c2 →
      createUser parse secret now tsNanos createdAt st r2 cb =
        createUser parse secret now tsNanos createdAt st r cb) := by
  refine ⟨by simp [createUser, hc], fun _ _ => by simp [createUser, hc], ?_⟩
  intro r2 c2 hc2
  simp [createUser, hc, hc2]

/-- C9 witness: a validly signed token for the unknown subject `ghost`
(absent from the seeded admin store) authorizes a create, and two
requests carrying different valid tokens produce the same result. -/
theorem C9_gate_ignores_identity_witness :
    (createUser (fun _ => jwtEncode "s" { username := "ghost", exp := 10 }) "s" 0 5 "t"
        [] { authHeader := some "Bearer a" } { name := "Ana", email := "a" }).1.status =
      201 ∧
    (createUser (fun _ => jwtEncode "s" { username := "ghost", exp := 10 }) "s" 0 5 "t"
        [] { authHeader := some "Bearer b" } { name := "Ana", email := "a" } =
      createUser (fun _ => jwtEncode "s" { username := "ghost", exp := 10 }) "s" 0 5 "t"
        [] { authHeader := some "Bearer a" } { name := "Ana", email := "a" }) ∧
    lookupAdmin (seedAdmins "t0") "ghost" = none := by
  have h := C9_gate_ignores_identity
    (fun _ => jwtEncode "s" { username := "ghost", exp := 10 }) "s" 0 5 "t" []
    { authHeader := some "Bearer a" } { name := "Ana", email := "a" }
    { username := "ghost", exp := 10 } (by decide)
  exact ⟨h.1, h.2.2 { authHeader := some "Bearer b" } { username := "ghost", exp := 10 }
    (by decide), by decide⟩

/-- C10: token extraction can succeed only when the request carries an
Authorization header whose value starts with the exact case-sensitive
seven characters `Bearer` plus space; for any header value without that
exact sequence at its start (a different scheme spelling such as
lowercase `bearer`, or a missing space) extraction yields `none` and the
request is unauthenticated. -/
theorem C10_bearer_exact (parse : String → TokenStr) (secret : String) (now : Nat) :
    (∀ r : Req, (extractTokenClaims parse secret now r).isSome = true →
      r.authHeader ≠ none) ∧
    (∀ s : String,
      (extractTokenClaims parse secret now { authHeader := some s }).isSome = true →
      "Bearer ".data.isPrefixOf s.data = true) ∧
    (∀ s : String, "Bearer ".data.isPrefixOf s.data = false →
      extractTokenClaims parse secret now { authHeader := some s } = none) := by
  refine ⟨?_, ?_, ?_⟩
  · intro r hr hn
    simp [extractTokenClaims, hn] at hr
  · intro s hs
    cases hp : "Bearer ".data.isPrefixOf s.data with
    | false => simp [extractTokenClaims, bearerRest, hp] at hs
    | true => rfl
  · intro s hp
    simp [extractTokenClaims, bearerRest, hp]

/-- C10 witness: a `Bearer ` header extracts; lowercase `bearer ` and the
missing-space spelling `BearerX` are rejected. -/
theorem C10_bearer_exact_witness :
    "Bearer ".data.isPrefixOf "Bearer x".data = true ∧
    extractTokenClaims (fun _ => jwtEncode "s" { username := "admin", exp := 10 }) "s" 0
      { authHeader := some "bearer x" } = none ∧
    extractTokenClaims (fun _ => jwtEncode "s" { username := "admin", exp := 10 }) "s" 0
      { authHeader := some "BearerX" } = none := by
  have h := C10_bearer_exact
    (fun _ => jwtEncode "s" { username := "admin", exp := 10 }) "s" 0
  exact ⟨h.2.1 "Bearer x" (by decide), h.2.2 "bearer x" (by decide),
    h.2.2 "BearerX" (by decide)⟩
